import Mathlib

/-!
Verification of the retrieval (RAG) subsystem of the helpdesk repository:
the chunking, embedding, and semantic-search service implemented by the
class RAGService (file src/services/faceVerification.js, second module).

Strings are modelled as lists of characters, JavaScript numbers as exact
rationals (or reals where square roots are involved), JavaScript
exceptions as Except values, and the mutable singleton service object as
an explicit record that every operation threads through.
-/

namespace Helpdesk

/-- Model of JavaScript String.prototype.slice with its index
normalization: negative indices count from the end, indices are clamped
to the string length. -/
def jsSlice (s : List Char) (a b : Int) : List Char :=
  let len : Int := s.length
  let lo := (max 0 (min (if a < 0 then len + a else a) len)).toNat
  let hi := (max 0 (min (if b < 0 then len + b else b) len)).toNat
  (s.take hi).drop lo

/-- Model of JavaScript String.prototype.lastIndexOf for a single
character: the greatest index holding the character, or -1. -/
def lastIndexOf (s : List Char) (c : Char) : Int :=
  match s.reverse.findIdx? (fun x => x == c) with
  | some j => (s.length : Int) - 1 - j
  | none => -1

/-- Whitespace characters relevant to the texts in this development;
used to model String.prototype.trim and splitting on whitespace runs. -/
def isWs (c : Char) : Bool := c == ' ' || c == '\n' || c == '\t' || c == '\r'

/-- Model of JavaScript String.prototype.trim. -/
def jsTrim (s : List Char) : List Char :=
  ((s.dropWhile isWs).reverse.dropWhile isWs).reverse

/-- One iteration of the while-loop body of RAGService.splitIntoChunks:
from the current cursor value it returns the new cursor value and the
chunk candidate of this iteration (before the trim-and-length filter).
The JavaScript comparison breakPoint > start + chunkSize * 0.7 is exact
at the chunk sizes used in the repository (0.7 times 10, 100 and 1000
are exactly 7, 70 and 700 in binary64), so it is modelled by the
equivalent integer comparison with both sides scaled by 10.
Note that breakPoint is the result of lastIndexOf on the sliced chunk,
hence an offset relative to start, while the threshold it is compared
against involves the absolute cursor start. -/
def splitStep (text : List Char) (chunkSize overlap : Int) (start : Int) :
    Int × List Char :=
  let len : Int := text.length
  let stop := min (start + chunkSize) len
  let chunk := jsSlice text start stop
  if stop < len then
    let lastPeriod := lastIndexOf chunk '.'
    let lastNewline := lastIndexOf chunk '\n'
    let breakPoint := max lastPeriod lastNewline
    if 10 * breakPoint > 10 * start + 7 * chunkSize then
      (start + breakPoint + 1 - overlap, jsSlice text start (start + breakPoint + 1))
    else
      (stop - overlap, chunk)
  else
    (stop, chunk)

/-- Fuel-indexed model of the while-loop of RAGService.splitIntoChunks.
The source loop has no termination guard, so the model returns none when
the given fuel is not enough to reach loop exit; any execution that does
exit yields some result, independently of the (sufficiently large)
fuel. Chunks are accumulated in reverse and restored at exit. -/
def splitGo (text : List Char) (chunkSize overlap : Int) :
    Nat → Int → List (List Char) → Option (List (List Char))
  | 0, start, acc =>
      if start < (text.length : Int) then none else some acc.reverse
  | fuel + 1, start, acc =>
      if start < (text.length : Int) then
        let step := splitStep text chunkSize overlap start
        let trimmed := jsTrim step.2
        let acc2 := if 50 < trimmed.length then trimmed :: acc else acc
        splitGo text chunkSize overlap fuel step.1 acc2
      else some acc.reverse

/-- Model of RAGService.splitIntoChunks. The default fuel
text.length + 1 covers every terminating execution occurring in the
service (which always calls with chunkSize 1000, overlap 200, where the
cursor advances by at least 502 per iteration). -/
def splitIntoChunks (text : List Char) (chunkSize overlap : Int) :
    Option (List (List Char)) :=
  splitGo text chunkSize overlap (text.length + 1) 0 []

/-- Model of the vector dot product loop inside
RAGService.cosineSimilarity; also used for the two squared norms. After
the length check of the source, both lists have the same length, so the
pointwise recursion matches the indexed for-loop of the source. -/
def dotp {K : Type} [Field K] : List K → List K → K
  | a :: as, b :: bs => a * b + dotp as bs
  | _, _ => 0

/-- Model of RAGService.cosineSimilarity. The scalar type and the
square-root function are parameters so that the very same definition
can be read over the reals with Real.sqrt (the idealization of
JavaScript numbers with Math.sqrt) while remaining executable over ℚ.
A thrown JavaScript Error is an Except.error carrying the message. -/
def cosineSimilarity {K : Type} [Field K] [DecidableEq K] (sqrt : K → K)
    (vecA vecB : List K) : Except String K :=
  if vecA.length ≠ vecB.length then
    .error "Vectors must have the same length"
  else
    let dotProduct := dotp vecA vecB
    let normA := sqrt (dotp vecA vecA)
    let normB := sqrt (dotp vecB vecB)
    if normA = 0 ∨ normB = 0 then .ok 0
    else .ok (dotProduct / (normA * normB))

/-- One element of the chunkEmbeddings array of the service: the object
literal pushed by generateChunkEmbeddings. Embedding vectors of the
service model are exact rationals. -/
structure ChunkEmbedding where
  chunk : List Char
  embedding : List ℚ
  index : Nat
  deriving DecidableEq, Repr

/-- The mutable fields of the RAGService singleton. -/
structure RAGState where
  documentChunks : List (List Char)
  chunkEmbeddings : List ChunkEmbedding
  isInitialized : Bool
  deriving DecidableEq, Repr

/-- The state of a freshly constructed RAGService. -/
def initialState : RAGState :=
  { documentChunks := [], chunkEmbeddings := [], isInitialized := false }

/-- The external collaborators of the service, as observed through one
call: the outcome of reading and parsing the source PDF, the outcome of
the embedding provider on each text, the square-root function backing
cosineSimilarity, and the decimal rendering of a similarity used by
Number.prototype.toFixed when formatting results. -/
structure Env where
  extractText : Except String (List Char)
  embed : List Char → Except String (List ℚ)
  sqrt : ℚ → ℚ
  renderSim : ℚ → List Char

/-- The for-loop of RAGService.generateChunkEmbeddings: embeds the
remaining chunks in order, pushing one record per chunk, and stops at
the first embedding failure, returning the records pushed so far
together with the error. -/
def genGo (env : Env) : List (List Char) → Nat → List ChunkEmbedding →
    List ChunkEmbedding × Option String
  | [], _, acc => (acc, none)
  | c :: rest, i, acc =>
      match env.embed c with
      | .error e => (acc, some e)
      | .ok v => genGo env rest (i + 1) (acc ++ [⟨c, v, i⟩])

/-- Model of RAGService.generateChunkEmbeddings: resets chunkEmbeddings
to the empty array, then runs the embedding loop; on failure the
partially filled array stays assigned and the error propagates. -/
def generateChunkEmbeddings (env : Env) (s : RAGState) :
    RAGState × Option String :=
  let r := genGo env s.documentChunks 0 []
  ({ s with chunkEmbeddings := r.1 }, r.2)

/-- Model of RAGService.loadAndProcessPDF: read and parse the PDF (any
failure propagates with the state untouched), assign documentChunks from
splitIntoChunks with the hard-wired parameters 1000 and 200, then run
generateChunkEmbeddings. The none case of the fuelled chunker models a
loop that never exits, after which no further mutation happens; it is
unreachable at these parameters. -/
def loadAndProcessPDF (env : Env) (s : RAGState) : RAGState × Option String :=
  match env.extractText with
  | .error e => (s, some e)
  | .ok fullText =>
      match splitIntoChunks fullText 1000 200 with
      | none => (s, some "chunker loop does not exit")
      | some chunks =>
          generateChunkEmbeddings env { s with documentChunks := chunks }

/-- Model of RAGService.initialize (renamed for the development): runs
loadAndProcessPDF and only on success sets isInitialized to true; on
failure the error propagates and isInitialized keeps its prior value. -/
def initRAG (env : Env) (s : RAGState) : RAGState × Option String :=
  match loadAndProcessPDF env s with
  | (s2, some e) => (s2, some e)
  | (s2, none) => ({ s2 with isInitialized := true }, none)

/-- Model of RAGService.refreshVectorStore: sets isInitialized to false
and clears both arrays before rebuilding; on success sets isInitialized
back to true, on failure rethrows. -/
def refreshVectorStore (env : Env) (_s : RAGState) : RAGState × Option String :=
  match loadAndProcessPDF env
      { documentChunks := [], chunkEmbeddings := [], isInitialized := false } with
  | (s2, some e) => (s2, some e)
  | (s2, none) => ({ s2 with isInitialized := true }, none)

/-- One element of the similarities array built inside
RAGService.searchRelevantContext: a chunk record extended with its
cosine similarity to the query embedding. -/
structure ScoredChunk where
  chunk : List Char
  embedding : List ℚ
  index : Nat
  similarity : ℚ
  deriving DecidableEq, Repr

/-- The map over chunkEmbeddings computing similarities. A thrown
cosineSimilarity error (length mismatch) aborts the map and propagates,
exactly as a throw inside Array.prototype.map does. -/
def scoreChunks (sqrt : ℚ → ℚ) (qe : List ℚ) :
    List ChunkEmbedding → Except String (List ScoredChunk)
  | [] => .ok []
  | cd :: rest =>
      match cosineSimilarity sqrt qe cd.embedding with
      | .error e => .error e
      | .ok sim =>
          match scoreChunks sqrt qe rest with
          | .error e => .error e
          | .ok scored => .ok (⟨cd.chunk, cd.embedding, cd.index, sim⟩ :: scored)

/-- Insertion of one element into a list already sorted by descending
similarity, placing it before the first element not strictly greater.
Source comparator: (a, b) => b.similarity - a.similarity. -/
def insertDesc (x : ScoredChunk) : List ScoredChunk → List ScoredChunk
  | [] => [x]
  | y :: ys =>
      if x.similarity < y.similarity then y :: insertDesc x ys
      else x :: y :: ys

/-- Stable sort by descending similarity. Array.prototype.sort is
stable, and a stable sort consistent with the source comparator is
unique, so this insertion sort computes exactly the array the source
sort produces. -/
def sortDesc : List ScoredChunk → List ScoredChunk
  | [] => []
  | x :: xs => insertDesc x (sortDesc xs)

/-- The sort-then-slice step of RAGService.searchRelevantContext
producing topResults from the similarities array. -/
def topK (scored : List ScoredChunk) (k : Nat) : List ScoredChunk :=
  (sortDesc scored).take k

/-- Decimal rendering of a natural number, for the section counter
interpolated into the formatted output. -/
def renderNat (n : Nat) : List Char := (Nat.repr n).data

/-- The map building the formatted passage for each result, with its
1-based position. -/
def formatGo (renderSim : ℚ → List Char) (i : Nat) :
    List ScoredChunk → List (List Char)
  | [] => []
  | r :: rest =>
      ("Relevant Section ".data ++ renderNat (i + 1) ++
        " (Similarity: ".data ++ renderSim r.similarity ++ "):\n".data ++
        r.chunk ++ "\n".data) :: formatGo renderSim (i + 1) rest

/-- The formatting step of RAGService.searchRelevantContext: one block
per result, joined with a newline. -/
def formatResults (renderSim : ℚ → List Char) (results : List ScoredChunk) :
    List Char :=
  List.intercalate "\n".data (formatGo renderSim 0 results)

/-- The part of RAGService.searchRelevantContext after the
initialization guard: embed the query, score every stored chunk, sort,
slice and format. Errors propagate to the enclosing try. -/
def searchAfterInit (env : Env) (s : RAGState) (query : List Char) (k : Nat) :
    RAGState × Except String (List Char) :=
  match env.embed query with
  | .error e => (s, .error e)
  | .ok qe =>
      match scoreChunks env.sqrt qe s.chunkEmbeddings with
      | .error e => (s, .error e)
      | .ok scored => (s, .ok (formatResults env.renderSim (topK scored k)))

/-- The try-block of RAGService.searchRelevantContext: initializes
first when not initialized (an initialization failure propagates), then
searches. -/
def searchBody (env : Env) (s : RAGState) (query : List Char) (k : Nat) :
    RAGState × Except String (List Char) :=
  if s.isInitialized then searchAfterInit env s query k
  else
    match initRAG env s with
    | (s2, some e) => (s2, .error e)
    | (s2, none) => searchAfterInit env s2 query k

/-- Model of RAGService.searchRelevantContext: the catch-clause turns
any internal error into the empty string. -/
def searchRelevantContext (env : Env) (s : RAGState) (query : List Char)
    (k : Nat) : RAGState × List Char :=
  match searchBody env s query k with
  | (s2, .error _) => (s2, [])
  | (s2, .ok out) => (s2, out)

/-- Splitting on whitespace runs, as String.prototype.split with the
regular expression matching one or more whitespace characters behaves:
an empty token appears when the text starts or ends with whitespace. -/
def splitWsGo : List Char → List Char → List (List Char)
  | [], cur => [cur.reverse]
  | c :: rest, cur =>
      if isWs c then cur.reverse :: splitWsGo (rest.dropWhile isWs) []
      else splitWsGo rest (c :: cur)
termination_by l _ => l.length
decreasing_by
  · refine Nat.lt_succ_of_le ?_
    have h : ∀ l : List Char, (l.dropWhile isWs).length ≤ l.length := by
      intro l
      induction l with
      | nil => simp [List.dropWhile]
      | cons a t ih =>
          by_cases ha : isWs a
          · simpa [List.dropWhile, ha] using Nat.le_succ_of_le ih
          · simp [List.dropWhile, ha]
    exact h rest
  · exact Nat.lt_succ_self _

/-- Model of RAGService.extractSearchTerms: lower-case, split on
whitespace, keep tokens longer than 3 characters, keep the first 5,
join with single spaces. -/
def extractSearchTerms (message : List Char) : List Char :=
  let keywords :=
    (((splitWsGo (message.map Char.toLower) []).filter
      (fun w => 3 < w.length)).take 5)
  List.intercalate [' '] keywords

/-- Model of RAGService.getRelevantSections: initializes when needed
(the catch-clause turns an initialization failure into the empty
string), extracts search terms, and delegates to searchRelevantContext,
which never throws. -/
def getRelevantSections (env : Env) (s : RAGState) (userMessage : List Char)
    (maxChunks : Nat) : RAGState × List Char :=
  if s.isInitialized then
    searchRelevantContext env s (extractSearchTerms userMessage) maxChunks
  else
    match initRAG env s with
    | (s2, some _) => (s2, [])
    | (s2, none) =>
        searchRelevantContext env s2 (extractSearchTerms userMessage) maxChunks

/-- Modelled from the spec, for comparison with the source chunker
under claim C4: one iteration of the chunker as section 4.1 of the
specification words it, with the break point taken as an absolute
position in the window from start to the candidate end, compared
against start plus 0.7 times the chunk size. Identical to splitStep
except that the threshold comparison uses the absolute break position
start + rel rather than the window-relative offset rel. -/
def splitSpecStep (text : List Char) (chunkSize overlap : Int) (start : Int) :
    Int × List Char :=
  let len : Int := text.length
  let stop := min (start + chunkSize) len
  let chunk := jsSlice text start stop
  if stop < len then
    let lastPeriod := lastIndexOf chunk '.'
    let lastNewline := lastIndexOf chunk '\n'
    let rel := max lastPeriod lastNewline
    if 10 * (start + rel) > 10 * start + 7 * chunkSize then
      (start + rel + 1 - overlap, jsSlice text start (start + rel + 1))
    else
      (stop - overlap, chunk)
  else
    (stop, chunk)

/-- Modelled from the spec: the chunking loop of section 4.1 built on
splitSpecStep, with the same trim-and-discard rule and fuel handling as
the model of the source loop. -/
def splitSpecGo (text : List Char) (chunkSize overlap : Int) :
    Nat → Int → List (List Char) → Option (List (List Char))
  | 0, start, acc =>
      if start < (text.length : Int) then none else some acc.reverse
  | fuel + 1, start, acc =>
      if start < (text.length : Int) then
        let step := splitSpecStep text chunkSize overlap start
        let trimmed := jsTrim step.2
        let acc2 := if 50 < trimmed.length then trimmed :: acc else acc
        splitSpecGo text chunkSize overlap fuel step.1 acc2
      else some acc.reverse

/-- Modelled from the spec: the chunker of section 4.1 of the
specification, used to exhibit where the source chunker diverges from
it. -/
def splitSpecChunks (text : List Char) (chunkSize overlap : Int) :
    Option (List (List Char)) :=
  splitSpecGo text chunkSize overlap (text.length + 1) 0 []

/-- The strict ranking the specification asks of the top-k output:
earlier results have strictly greater similarity, or equal similarity
and smaller original chunk index. -/
def rankedBefore (a b : ScoredChunk) : Prop :=
  b.similarity < a.similarity ∨
    (b.similarity = a.similarity ∧ a.index < b.index)

/-- The operations the service exposes (the raw initialization entry
point is invoked by the startup script only, on a cold service). -/
inductive Op where
  | refresh : Op
  | search : List Char → Nat → Op
  | getRel : List Char → Nat → Op
  | init : Op

/-- The state reached after one service operation (each operation runs
against the collaborator behaviour it observes during that call). -/
def stepOp (env : Env) (s : RAGState) : Op → RAGState
  | .refresh => (refreshVectorStore env s).1
  | .search q k => (searchRelevantContext env s q k).1
  | .getRel m k => (getRelevantSections env s m k).1
  | .init => (initRAG env s).1

/-- A state whose index is fully built: the embedding records pair up
one to one and in order with the document chunks, carrying the
positional indices. -/
def fullyBuilt (s : RAGState) : Prop :=
  s.chunkEmbeddings.map ChunkEmbedding.chunk = s.documentChunks ∧
  s.chunkEmbeddings.map ChunkEmbedding.index =
    List.range s.documentChunks.length

/-- The build invariant the service actually maintains: whenever the
initialized flag is set, the index is fully built. -/
def builtInvariant (s : RAGState) : Prop :=
  s.isInitialized = true → fullyBuilt s

/-- Concrete input for claim C4: 195 letters, a period, 34 letters.
With chunk size 100 and overlap 0, the second window holds a period at
absolute position 195, beyond the 170 the specification rule asks for,
yet at window-relative offset 95, below the threshold the source
compares against. -/
def c4text : List Char := List.replicate 195 'a' ++ ['.'] ++ List.replicate 34 'b'

/-- Concrete input for claim C7: with chunk size and overlap both 100,
every iteration leaves the cursor at 0. -/
def c7text : List Char := List.replicate 150 'a'

/-- A collaborator behaviour whose embedding provider always fails. -/
def envEmbedFail : Env :=
  { extractText := .ok []
    embed := fun _ => .error "embed failed"
    sqrt := fun x => x
    renderSim := fun _ => [] }

/-- A collaborator behaviour whose document extraction fails. -/
def envExtractFail : Env :=
  { extractText := .error "ENOENT"
    embed := fun _ => .ok [1]
    sqrt := fun x => x
    renderSim := fun _ => [] }

/-- A collaborator behaviour for claim C3: the extracted text splits
into exactly two chunks, of 1000 and 800 characters; the embedding
provider accepts the first and fails on the second. -/
def envPartialEmbed : Env :=
  { extractText := .ok (List.replicate 1600 'a')
    embed := fun t => if t.length = 1000 then .ok [1] else .error "quota"
    sqrt := fun x => x
    renderSim := fun _ => [] }

/-- A service state holding one fully built generation of one chunk. -/
def oneChunkState : RAGState :=
  { documentChunks := [List.replicate 60 'a']
    chunkEmbeddings := [⟨List.replicate 60 'a', [1], 0⟩]
    isInitialized := true }

/-- Two stored chunk records with positional indices, for the top-k
witness. -/
def cesW : List ChunkEmbedding := [⟨['a'], [1], 0⟩, ⟨['b'], [2], 1⟩]

/-- The similarities the search computes for cesW against the query
embedding with one coordinate 1, under the identity in place of the
square root. -/
def scoredW : List ScoredChunk := [⟨['a'], [1], 0, 1⟩, ⟨['b'], [2], 1, 1 / 2⟩]

/-! Helper lemmas about the dot product loop. -/

theorem dotp_comm {K : Type} [Field K] : ∀ a b : List K, dotp a b = dotp b a
  | [], [] => rfl
  | [], _ :: _ => rfl
  | _ :: _, [] => rfl
  | a :: as, b :: bs => by
      simp only [dotp, dotp_comm as bs, mul_comm]

theorem dotp_self_nonneg : ∀ a : List ℝ, 0 ≤ dotp a a
  | [] => le_refl 0
  | x :: xs => by
      simp only [dotp]
      exact add_nonneg (mul_self_nonneg x) (dotp_self_nonneg xs)

theorem dotp_self_pos : ∀ a : List ℝ, (∃ x ∈ a, x ≠ 0) → 0 < dotp a a
  | [], h => by simp at h
  | x :: xs, h => by
      simp only [dotp]
      rcases h with ⟨y, hy, hy0⟩
      rcases List.mem_cons.mp hy with rfl | hmem
      · exact add_pos_of_pos_of_nonneg (mul_self_pos.mpr hy0) (dotp_self_nonneg xs)
      · exact add_pos_of_nonneg_of_pos (mul_self_nonneg x)
          (dotp_self_pos xs ⟨y, hmem, hy0⟩)

/-- Claim C10: on vectors of different lengths, cosineSimilarity raises
the error about mismatched lengths, for every scalar field, every
square-root function and every vector contents, before any dot product
or norm can influence the outcome. -/
theorem cosineSimilarity_length_check {K : Type} [Field K] [DecidableEq K]
    (sqrt : K → K) (vecA vecB : List K) (h : vecA.length ≠ vecB.length) :
    cosineSimilarity sqrt vecA vecB =
      .error "Vectors must have the same length" := by
  simp only [cosineSimilarity]
  rw [if_pos h]

/-- Witness for claim C10 at concrete vectors of lengths 1 and 2. -/
theorem cosineSimilarity_length_check_witness :
    cosineSimilarity (fun x => x) ([0] : List ℚ) [0, 0] =
      .error "Vectors must have the same length" :=
  cosineSimilarity_length_check (fun x => x) [0] [0, 0] (by decide)

/-- Counterexample to claim C6 as stated: the zero vector against a
vector of a different length raises the length error instead of
returning 0, so zero-norm inputs are not exempt from raising. -/
theorem cosineSimilarity_zero_vs_mismatch :
    cosineSimilarity Real.sqrt ([0] : List ℝ) [0, 0] =
      .error "Vectors must have the same length" := rfl

/-- Claim C6 as amended: for every pair of vectors of the same length
where either has squared norm 0 (in particular the zero vector against
anything of its length), cosineSimilarity returns 0 and does not raise
and no division is performed. -/
theorem cosineSimilarity_zero_norm (vecA vecB : List ℝ)
    (hlen : vecA.length = vecB.length)
    (h0 : dotp vecA vecA = 0 ∨ dotp vecB vecB = 0) :
    cosineSimilarity Real.sqrt vecA vecB = .ok 0 := by
  have hguard : Real.sqrt (dotp vecA vecA) = 0 ∨ Real.sqrt (dotp vecB vecB) = 0 := by
    rcases h0 with h | h
    · exact Or.inl (by rw [h, Real.sqrt_zero])
    · exact Or.inr (by rw [h, Real.sqrt_zero])
  simp only [cosineSimilarity]
  rw [if_neg (by simp [hlen]), if_pos hguard]

/-- Witness for the amended claim C6 at the zero vector against a
nonzero vector of the same length. -/
theorem cosineSimilarity_zero_norm_witness :
    cosineSimilarity Real.sqrt [(0 : ℝ)] [5] = .ok 0 :=
  cosineSimilarity_zero_norm [0] [5] rfl (Or.inl (by simp [dotp]))

/-- Claim C9: on any vector with a nonzero coordinate, the similarity
of the vector with itself is exactly 1, and the similarity is symmetric
on every pair of vectors of equal length. -/
theorem cosineSimilarity_self_and_symm :
    (∀ a : List ℝ, (∃ x ∈ a, x ≠ 0) →
      cosineSimilarity Real.sqrt a a = .ok 1) ∧
    (∀ a b : List ℝ, a.length = b.length →
      cosineSimilarity Real.sqrt a b = cosineSimilarity Real.sqrt b a) := by
  constructor
  · intro a ha
    have hpos : 0 < dotp a a := dotp_self_pos a ha
    have hsq : Real.sqrt (dotp a a) ≠ 0 :=
      ne_of_gt (Real.sqrt_pos.mpr hpos)
    simp only [cosineSimilarity]
    rw [if_neg (by simp), if_neg (by push_neg; exact ⟨hsq, hsq⟩),
      Real.mul_self_sqrt hpos.le, div_self (ne_of_gt hpos)]
  · intro a b hlen
    simp only [cosineSimilarity]
    by_cases hg : Real.sqrt (dotp a a) = 0 ∨ Real.sqrt (dotp b b) = 0
    · rw [if_neg (by simp [hlen]), if_pos hg,
        if_neg (by simp [hlen]), if_pos (or_comm.mp hg)]
    · rw [if_neg (by simp [hlen]), if_neg hg,
        if_neg (by simp [hlen]), if_neg (fun hc => hg (or_comm.mp hc)),
        dotp_comm a b, mul_comm (Real.sqrt (dotp a a)) (Real.sqrt (dotp b b))]

/-- Witness for claim C9 at the one-coordinate vectors 1 and 0. -/
theorem cosineSimilarity_self_and_symm_witness :
    cosineSimilarity Real.sqrt [(1 : ℝ)] [1] = .ok 1 ∧
    cosineSimilarity Real.sqrt [(0 : ℝ)] [1] =
      cosineSimilarity Real.sqrt [1] [0] :=
  ⟨cosineSimilarity_self_and_symm.1 [1] ⟨1, by simp, one_ne_zero⟩,
    cosineSimilarity_self_and_symm.2 [0] [1] rfl⟩

set_option maxRecDepth 100000 in
/-- Claim C4: at the concrete input c4text with chunk size 100 and
overlap 0, the second window from 100 to 200 holds a period at absolute
position 195, beyond start + 0.7 * chunkSize = 170, so the rule of the
specification cuts the second chunk at the period; the source instead
compares the window-relative offset 95 of that period against 170,
misses the break, and cuts the second chunk at the raw boundary 200. -/
theorem splitIntoChunks_ignores_late_sentence_break :
    splitIntoChunks c4text 100 0 =
      some [List.replicate 100 'a',
        List.replicate 95 'a' ++ ['.'] ++ List.replicate 4 'b'] ∧
    splitSpecChunks c4text 100 0 =
      some [List.replicate 100 'a', List.replicate 95 'a' ++ ['.']] :=
  ⟨rfl, rfl⟩

set_option maxRecDepth 100000 in
/-- Claim C7: the source chunker has no configuration guard. At the
concrete input c7text with chunk size 100 and overlap 100, one loop
iteration leaves the cursor unchanged at 0, and the loop never exits:
for every amount of fuel the loop model is still running. -/
theorem splitIntoChunks_overlap_diverges :
    (splitStep c7text 100 100 0).1 = 0 ∧
    ∀ (fuel : Nat) (acc : List (List Char)),
      splitGo c7text 100 100 fuel 0 acc = none := by
  refine ⟨rfl, ?_⟩
  intro fuel
  induction fuel with
  | zero => intro acc; rfl
  | succ n ih =>
      intro acc
      have h : splitGo c7text 100 100 (n + 1) 0 acc
          = splitGo c7text 100 100 n 0 (List.replicate 100 'a' :: acc) := rfl
      rw [h]
      exact ih _

/-- Neither PDF loading, chunking nor embedding generation touches the
initialized flag; only the two entry points themselves do. -/
theorem loadAndProcessPDF_isInitialized (env : Env) (s : RAGState) :
    (loadAndProcessPDF env s).1.isInitialized = s.isInitialized := by
  unfold loadAndProcessPDF
  split
  · rfl
  · split
    · rfl
    · rfl

/-- Counterexample to claim C1 as stated: a failed refresh does not
leave the previous generation active. From a state serving one
embedded chunk, a refresh whose extraction fails ends with both arrays
empty and the initialized flag cleared, while the previous generation
was nonempty. -/
theorem refreshVectorStore_drops_previous_generation :
    refreshVectorStore envExtractFail oneChunkState =
      (initialState, some "ENOENT") ∧
    oneChunkState.chunkEmbeddings ≠ [] ∧
    oneChunkState.isInitialized = true :=
  ⟨rfl, by simp [oneChunkState], rfl⟩

/-- Claim C1 as amended: refreshVectorStore discards the previous
generation unconditionally before rebuilding, so its outcome does not
depend on the prior state at all; and whenever the rebuild fails, the
service is left uninitialized (queries then re-attempt initialization
instead of serving the previous generation). -/
theorem refreshVectorStore_state_independent (env : Env) (s : RAGState) :
    refreshVectorStore env s = refreshVectorStore env initialState ∧
    ∀ s2 e, refreshVectorStore env s = (s2, some e) →
      s2.isInitialized = false := by
  constructor
  · rfl
  · intro s2 e h
    unfold refreshVectorStore at h
    rcases hload : loadAndProcessPDF env
        { documentChunks := [], chunkEmbeddings := [], isInitialized := false }
      with ⟨s3, r3⟩
    cases r3 with
    | none =>
        rw [hload] at h
        simp at h
    | some e3 =>
        rw [hload] at h
        simp only [Prod.mk.injEq] at h
        have hpres := loadAndProcessPDF_isInitialized env
          { documentChunks := [], chunkEmbeddings := [], isInitialized := false }
        rw [hload] at hpres
        rw [← h.1]
        exact hpres

/-- Witness for the amended claim C1: the failed refresh of the
counterexample state indeed matches the refresh of a fresh service and
ends uninitialized. -/
theorem refreshVectorStore_state_independent_witness :
    refreshVectorStore envExtractFail oneChunkState =
      refreshVectorStore envExtractFail initialState ∧
    initialState.isInitialized = false :=
  ⟨(refreshVectorStore_state_independent envExtractFail oneChunkState).1,
    (refreshVectorStore_state_independent envExtractFail oneChunkState).2
      initialState "ENOENT" rfl⟩

/-- Counterexample to claim C2 as stated: with an initialized one-chunk
state and an embedding provider that fails on the query, the try-body
of searchRelevantContext does fail internally, but the entry point
swallows the error and returns the empty string instead of propagating
it to its caller. -/
theorem searchRelevantContext_swallows_embed_error :
    searchBody envEmbedFail oneChunkState ['q'] 3 =
      (oneChunkState, .error "embed failed") ∧
    searchRelevantContext envEmbedFail oneChunkState ['q'] 3 =
      (oneChunkState, []) :=
  ⟨rfl, rfl⟩

/-- Claim C2 as amended: when the embedding call for the query fails on
an initialized service, searchRelevantContext catches the error and
returns the empty string with the state unchanged, rather than
raising. -/
theorem searchRelevantContext_empty_on_embed_error (env : Env)
    (s : RAGState) (query : List Char) (k : Nat) (e : String)
    (hs : s.isInitialized = true) (he : env.embed query = .error e) :
    searchRelevantContext env s query k = (s, []) := by
  simp [searchRelevantContext, searchBody, searchAfterInit, hs, he]

/-- Witness for the amended claim C2 at the concrete failing
provider. -/
theorem searchRelevantContext_empty_on_embed_error_witness :
    searchRelevantContext envEmbedFail oneChunkState ['q'] 3 =
      (oneChunkState, []) :=
  searchRelevantContext_empty_on_embed_error envEmbedFail oneChunkState
    ['q'] 3 "embed failed" rfl rfl

/-- When the embedding loop completes without a failure, it has
appended exactly one record per remaining chunk, in order, carrying the
consecutive indices. -/
theorem genGo_ok (env : Env) :
    ∀ (chunks : List (List Char)) (i : Nat) (acc ces : List ChunkEmbedding),
      genGo env chunks i acc = (ces, none) →
      ces.map ChunkEmbedding.chunk = acc.map ChunkEmbedding.chunk ++ chunks ∧
      ces.map ChunkEmbedding.index =
        acc.map ChunkEmbedding.index ++ List.range' i chunks.length
  | [], i, acc, ces, h => by
      simp only [genGo, Prod.mk.injEq] at h
      rw [← h.1]
      simp
  | c :: rest, i, acc, ces, h => by
      simp only [genGo] at h
      cases hemb : env.embed c with
      | error e => rw [hemb] at h; simp at h
      | ok v =>
          rw [hemb] at h
          have ih := genGo_ok env rest (i + 1) (acc ++ [⟨c, v, i⟩]) ces h
          constructor
          · rw [ih.1]
            simp
          · rw [ih.2, List.length_cons, List.range'_succ i rest.length 1]
            simp

/-- A successful load leaves the index fully built. -/
theorem loadAndProcessPDF_ok (env : Env) (s s2 : RAGState)
    (h : loadAndProcessPDF env s = (s2, none)) : fullyBuilt s2 := by
  unfold loadAndProcessPDF at h
  split at h
  · simp at h
  · split at h
    · simp at h
    · rename_i fullText chunks hsp
      unfold generateChunkEmbeddings at h
      dsimp only at h
      rcases hgen : genGo env chunks 0 [] with ⟨ces, r⟩
      rw [hgen] at h
      simp only [Prod.mk.injEq] at h
      cases r with
      | some e => exact absurd h.2 (by simp)
      | none =>
          have hmaps := genGo_ok env chunks 0 [] ces hgen
          rw [← h.1]
          constructor
          · simpa using hmaps.1
          · rw [List.range_eq_range']
            simpa using hmaps.2

/-- A successful initialization sets the flag and leaves the index
fully built. -/
theorem initRAG_ok (env : Env) (s s2 : RAGState)
    (h : initRAG env s = (s2, none)) :
    s2.isInitialized = true ∧ fullyBuilt s2 := by
  unfold initRAG at h
  rcases hload : loadAndProcessPDF env s with ⟨s3, r3⟩
  cases r3 with
  | some e => rw [hload] at h; simp at h
  | none =>
      rw [hload] at h
      simp only [Prod.mk.injEq] at h
      rw [← h.1]
      exact ⟨rfl, loadAndProcessPDF_ok env s s3 hload⟩

/-- A failed initialization leaves the flag as it was. -/
theorem initRAG_err (env : Env) (s s2 : RAGState) (e : String)
    (h : initRAG env s = (s2, some e)) :
    s2.isInitialized = s.isInitialized := by
  unfold initRAG at h
  rcases hload : loadAndProcessPDF env s with ⟨s3, r3⟩
  cases r3 with
  | some e3 =>
      rw [hload] at h
      simp only [Prod.mk.injEq] at h
      have hpres := loadAndProcessPDF_isInitialized env s
      rw [hload] at hpres
      rw [← h.1]
      exact hpres
  | none => rw [hload] at h; simp at h

/-- The query path after initialization never mutates the state. -/
theorem searchAfterInit_fst (env : Env) (s : RAGState) (q : List Char)
    (k : Nat) : (searchAfterInit env s q k).1 = s := by
  unfold searchAfterInit
  split
  · rfl
  · split
    · rfl
    · rfl

/-- A cold initialization (the only way the repository invokes the raw
entry point) preserves the build invariant. -/
theorem initRAG_invariant (env : Env) (s : RAGState)
    (hs : s.isInitialized = false) :
    builtInvariant (initRAG env s).1 := by
  rcases hinit : initRAG env s with ⟨s2, r⟩
  cases r with
  | some e =>
      intro hT
      have := initRAG_err env s s2 e hinit
      rw [hT, hs] at this
      exact Bool.noConfusion this
  | none =>
      intro _
      exact (initRAG_ok env s s2 hinit).2

/-- A refresh, successful or failed, preserves the build invariant. -/
theorem refreshVectorStore_invariant (env : Env) (s : RAGState) :
    builtInvariant (refreshVectorStore env s).1 := by
  unfold refreshVectorStore
  rcases hload : loadAndProcessPDF env
      { documentChunks := [], chunkEmbeddings := [], isInitialized := false }
    with ⟨s2, r⟩
  cases r with
  | some e =>
      show builtInvariant s2
      intro hT
      have hpres := loadAndProcessPDF_isInitialized env
        { documentChunks := [], chunkEmbeddings := [], isInitialized := false }
      rw [hload] at hpres
      dsimp only at hpres
      rw [hT] at hpres
      exact Bool.noConfusion hpres
  | none =>
      show builtInvariant { s2 with isInitialized := true }
      intro _
      exact loadAndProcessPDF_ok env _ s2 hload

/-- The search body preserves the build invariant. -/
theorem searchBody_invariant (env : Env) (s : RAGState) (q : List Char)
    (k : Nat) (hInv : builtInvariant s) :
    builtInvariant (searchBody env s q k).1 := by
  unfold searchBody
  by_cases hs : s.isInitialized = true
  · rw [if_pos hs, searchAfterInit_fst]
    exact hInv
  · rw [if_neg hs]
    rcases hinit : initRAG env s with ⟨s2, r⟩
    cases r with
    | some e =>
        show builtInvariant s2
        intro hT
        have := initRAG_err env s s2 e hinit
        rw [hT] at this
        exact absurd this.symm hs
    | none =>
        show builtInvariant (searchAfterInit env s2 q k).1
        rw [searchAfterInit_fst]
        intro _
        exact (initRAG_ok env s s2 hinit).2

/-- The state left by searchRelevantContext is the state left by its
try-body. -/
theorem searchRelevantContext_fst (env : Env) (s : RAGState) (q : List Char)
    (k : Nat) :
    (searchRelevantContext env s q k).1 = (searchBody env s q k).1 := by
  unfold searchRelevantContext
  rcases hb : searchBody env s q k with ⟨s2, r⟩
  cases r with
  | error e => rfl
  | ok out => rfl

/-- The query entry point preserves the build invariant. -/
theorem searchRelevantContext_invariant (env : Env) (s : RAGState)
    (q : List Char) (k : Nat) (hInv : builtInvariant s) :
    builtInvariant (searchRelevantContext env s q k).1 := by
  rw [searchRelevantContext_fst]
  exact searchBody_invariant env s q k hInv

/-- The production entry point preserves the build invariant. -/
theorem getRelevantSections_invariant (env : Env) (s : RAGState)
    (m : List Char) (k : Nat) (hInv : builtInvariant s) :
    builtInvariant (getRelevantSections env s m k).1 := by
  unfold getRelevantSections
  by_cases hs : s.isInitialized = true
  · rw [if_pos hs]
    exact searchRelevantContext_invariant env s _ k hInv
  · rw [if_neg hs]
    rcases hinit : initRAG env s with ⟨s2, r⟩
    cases r with
    | some e =>
        show builtInvariant s2
        intro hT
        have := initRAG_err env s s2 e hinit
        rw [hT] at this
        exact absurd this.symm hs
    | none =>
        have h2 : builtInvariant s2 := fun _ => (initRAG_ok env s s2 hinit).2
        exact searchRelevantContext_invariant env s2 _ k h2

set_option maxRecDepth 1000000 in
/-- Counterexample to claim C3 as stated: from a fresh service whose
document splits into two chunks and whose embedding provider accepts
the first chunk but rejects the second, a failed initialization leaves
an observable state in which one of the two chunks has an embedding
and the other has none. -/
theorem initRAG_incomplete_build_state :
    (initRAG envPartialEmbed initialState).1.documentChunks.length = 2 ∧
    (initRAG envPartialEmbed initialState).1.chunkEmbeddings.length = 1 ∧
    (initRAG envPartialEmbed initialState).2 = some "quota" :=
  ⟨rfl, rfl, rfl⟩

/-- Claim C3 as amended: a build that fails partway can leave partially
embedded state, but the weaker invariant holds: from the fresh state,
across any sequence of queries, refreshes and cold initializations
(the repository only initializes a cold service directly), whenever the
initialized flag is set, every document chunk has exactly one embedding
record, in order and with positional indices. -/
theorem builtInvariant_preserved :
    builtInvariant initialState ∧
    ∀ (env : Env) (s : RAGState) (op : Op),
      builtInvariant s → (op = Op.init → s.isInitialized = false) →
      builtInvariant (stepOp env s op) := by
  constructor
  · intro h
    exact Bool.noConfusion h
  · intro env s op hInv hcold
    cases op with
    | refresh => exact refreshVectorStore_invariant env s
    | search q k => exact searchRelevantContext_invariant env s q k hInv
    | getRel m k => exact getRelevantSections_invariant env s m k hInv
    | init => exact initRAG_invariant env s (hcold rfl)

/-- Witness for the amended claim C3: one preservation step at the
fresh state under a refresh whose extraction fails. -/
theorem builtInvariant_preserved_witness :
    builtInvariant (stepOp envExtractFail initialState Op.refresh) :=
  builtInvariant_preserved.2 envExtractFail initialState Op.refresh
    (fun h => Bool.noConfusion h) (fun _ => rfl)

/-- The query path after initialization either fails with some internal
error or returns exactly the formatted top-k passages of the scored
stored chunks. -/
theorem searchAfterInit_spec (env : Env) (s : RAGState) (q : List Char)
    (k : Nat) :
    (∃ e, (searchAfterInit env s q k).2 = .error e) ∨
    (∃ qe scored,
      env.embed q = .ok qe ∧
      scoreChunks env.sqrt qe s.chunkEmbeddings = .ok scored ∧
      (searchAfterInit env s q k).2 =
        .ok (formatResults env.renderSim (topK scored k))) := by
  unfold searchAfterInit
  rcases he : env.embed q with e | qe
  · exact Or.inl ⟨e, rfl⟩
  · dsimp only
    rcases hsc : scoreChunks env.sqrt qe s.chunkEmbeddings with e | scored
    · exact Or.inl ⟨e, rfl⟩
    · exact Or.inr ⟨qe, scored, rfl, hsc, rfl⟩

/-- The try-body of searchRelevantContext either fails with some
internal error or returns exactly the formatted top-k passages of the
chunks stored in the state it ends in. -/
theorem searchBody_spec (env : Env) (s : RAGState) (q : List Char)
    (k : Nat) :
    (∃ e, (searchBody env s q k).2 = .error e) ∨
    (∃ qe scored,
      env.embed q = .ok qe ∧
      scoreChunks env.sqrt qe (searchBody env s q k).1.chunkEmbeddings =
        .ok scored ∧
      (searchBody env s q k).2 =
        .ok (formatResults env.renderSim (topK scored k))) := by
  unfold searchBody
  by_cases hs : s.isInitialized = true
  · rw [if_pos hs]
    rcases searchAfterInit_spec env s q k with ⟨e, he⟩ | ⟨qe, scored, h1, h2, h3⟩
    · exact Or.inl ⟨e, he⟩
    · refine Or.inr ⟨qe, scored, h1, ?_, h3⟩
      rw [searchAfterInit_fst]
      exact h2
  · rw [if_neg hs]
    rcases hinit : initRAG env s with ⟨s2, r⟩
    cases r with
    | some e => exact Or.inl ⟨e, rfl⟩
    | none =>
        show (∃ e, (searchAfterInit env s2 q k).2 = .error e) ∨
          (∃ qe scored,
            env.embed q = .ok qe ∧
            scoreChunks env.sqrt qe
              (searchAfterInit env s2 q k).1.chunkEmbeddings = .ok scored ∧
            (searchAfterInit env s2 q k).2 =
              .ok (formatResults env.renderSim (topK scored k)))
        rcases searchAfterInit_spec env s2 q k with ⟨e, he⟩ | ⟨qe, scored, h1, h2, h3⟩
        · exact Or.inl ⟨e, he⟩
        · refine Or.inr ⟨qe, scored, h1, ?_, h3⟩
          rw [searchAfterInit_fst]
          exact h2

/-- The low-level query entry point either returns the empty string or
the formatted top-k passages of a fully successful pipeline. -/
theorem searchRelevantContext_empty_or_ok (env : Env) (s : RAGState)
    (q : List Char) (k : Nat) :
    (searchRelevantContext env s q k).2 = [] ∨
    (∃ qe scored,
      env.embed q = .ok qe ∧
      scoreChunks env.sqrt qe
        (searchRelevantContext env s q k).1.chunkEmbeddings = .ok scored ∧
      (searchRelevantContext env s q k).2 =
        formatResults env.renderSim (topK scored k)) := by
  have hfst := searchRelevantContext_fst env s q k
  rcases searchBody_spec env s q k with ⟨e, he⟩ | ⟨qe, scored, h1, h2, h3⟩
  · left
    unfold searchRelevantContext
    rcases hb : searchBody env s q k with ⟨s2, r⟩
    rw [hb] at he
    cases r with
    | error e2 => rfl
    | ok out => exact absurd he (by simp)
  · right
    refine ⟨qe, scored, h1, ?_, ?_⟩
    · rw [hfst]
      exact h2
    · unfold searchRelevantContext
      rcases hb : searchBody env s q k with ⟨s2, r⟩
      rw [hb] at h3
      cases r with
      | error e2 => exact absurd h3 (by simp)
      | ok out =>
          simp only [Except.ok.injEq] at h3
          exact h3

/-- Claim C8: getRelevantSections is a total function of the model (the
try-catch converts every internal error), and it returns the empty
string unless the entire pipeline succeeded, in which case it returns
the formatted passages; in particular it returns the empty string for
every behaviour of the collaborators in which the embedding provider
fails, the document is unreadable, or any other internal step fails. -/
theorem getRelevantSections_empty_on_failure :
    ∀ (env : Env) (s : RAGState) (msg : List Char) (k : Nat),
      (getRelevantSections env s msg k).2 = [] ∨
      (∃ qe scored,
        env.embed (extractSearchTerms msg) = .ok qe ∧
        scoreChunks env.sqrt qe
          (getRelevantSections env s msg k).1.chunkEmbeddings = .ok scored ∧
        (getRelevantSections env s msg k).2 =
          formatResults env.renderSim (topK scored k)) := by
  intro env s msg k
  unfold getRelevantSections
  by_cases hs : s.isInitialized = true
  · rw [if_pos hs]
    exact searchRelevantContext_empty_or_ok env s (extractSearchTerms msg) k
  · rw [if_neg hs]
    rcases hinit : initRAG env s with ⟨s2, r⟩
    cases r with
    | some e => exact Or.inl rfl
    | none => exact searchRelevantContext_empty_or_ok env s2 (extractSearchTerms msg) k

/-! Lemmas about the stable descending sort of scored chunks. -/

theorem length_insertDesc (x : ScoredChunk) :
    ∀ l : List ScoredChunk, (insertDesc x l).length = l.length + 1
  | [] => rfl
  | y :: ys => by
      unfold insertDesc
      by_cases h : x.similarity < y.similarity
      · rw [if_pos h]
        simp [length_insertDesc x ys]
      · rw [if_neg h]
        simp

theorem mem_insertDesc (x a : ScoredChunk) :
    ∀ l : List ScoredChunk, a ∈ insertDesc x l ↔ a = x ∨ a ∈ l
  | [] => by simp [insertDesc]
  | y :: ys => by
      unfold insertDesc
      by_cases h : x.similarity < y.similarity
      · rw [if_pos h]
        simp only [List.mem_cons, mem_insertDesc x a ys]
        tauto
      · rw [if_neg h]
        simp only [List.mem_cons]

theorem length_sortDesc : ∀ l : List ScoredChunk, (sortDesc l).length = l.length
  | [] => rfl
  | x :: xs => by
      unfold sortDesc
      rw [length_insertDesc, length_sortDesc xs]
      rfl

theorem mem_sortDesc (a : ScoredChunk) :
    ∀ l : List ScoredChunk, a ∈ sortDesc l ↔ a ∈ l
  | [] => Iff.rfl
  | x :: xs => by
      unfold sortDesc
      rw [mem_insertDesc]
      simp [mem_sortDesc a xs]

/-- Inserting an element whose index is smaller than the index of every
element already present keeps the list sorted by strictly descending
similarity with ties ranked by ascending index: the insertion places the
element before exactly the elements of weakly smaller similarity, which
on ties is the stable first-seen order. -/
theorem insertDesc_pairwise (x : ScoredChunk) :
    ∀ l : List ScoredChunk, l.Pairwise rankedBefore →
      (∀ y ∈ l, x.index < y.index) →
      (insertDesc x l).Pairwise rankedBefore
  | [], _, _ => by simp [insertDesc, List.Pairwise.nil]
  | y :: ys, hp, hx => by
      unfold insertDesc
      by_cases h : x.similarity < y.similarity
      · rw [if_pos h]
        refine List.Pairwise.cons ?_ ?_
        · intro z hz
          rcases (mem_insertDesc x z ys).mp hz with rfl | hzys
          · exact Or.inl h
          · exact (List.pairwise_cons.mp hp).1 z hzys
        · exact insertDesc_pairwise x ys (List.pairwise_cons.mp hp).2
            (fun z hz => hx z (List.mem_cons_of_mem y hz))
      · rw [if_neg h]
        have hyx : y.similarity ≤ x.similarity := not_lt.mp h
        refine List.Pairwise.cons ?_ hp
        intro z hz
        rcases List.mem_cons.mp hz with rfl | hzys
        · rcases lt_or_eq_of_le hyx with hlt | heq
          · exact Or.inl hlt
          · exact Or.inr ⟨heq, hx z (List.mem_cons_self z ys)⟩
        · have hyz := (List.pairwise_cons.mp hp).1 z hzys
          rcases hyz with hlt | ⟨heq, _⟩
          · exact Or.inl (lt_of_lt_of_le hlt hyx)
          · have hzx : z.similarity ≤ x.similarity := heq.le.trans hyx
            rcases lt_or_eq_of_le hzx with hlt | heq2
            · exact Or.inl hlt
            · exact Or.inr ⟨heq2, hx z (List.mem_cons_of_mem y hzys)⟩

/-- Sorting a list whose indices strictly increase yields a list sorted
by strictly descending similarity, ties ranked by ascending index. -/
theorem sortDesc_pairwise :
    ∀ l : List ScoredChunk, l.Pairwise (fun a b => a.index < b.index) →
      (sortDesc l).Pairwise rankedBefore
  | [], _ => List.Pairwise.nil
  | x :: xs, hp => by
      unfold sortDesc
      refine insertDesc_pairwise x (sortDesc xs)
        (sortDesc_pairwise xs (List.pairwise_cons.mp hp).2) ?_
      intro y hy
      exact (List.pairwise_cons.mp hp).1 y ((mem_sortDesc y xs).mp hy)

/-- A successful scoring pass produces one scored record per stored
record, preserving order and indices. -/
theorem scoreChunks_ok (sqrt : ℚ → ℚ) (qe : List ℚ) :
    ∀ (ces : List ChunkEmbedding) (scored : List ScoredChunk),
      scoreChunks sqrt qe ces = .ok scored →
      scored.length = ces.length ∧
      scored.map ScoredChunk.index = ces.map ChunkEmbedding.index
  | [], scored, h => by
      simp only [scoreChunks, Except.ok.injEq] at h
      rw [← h]
      simp
  | cd :: rest, scored, h => by
      simp only [scoreChunks] at h
      rcases hcs : cosineSimilarity sqrt qe cd.embedding with e | sim
      · rw [hcs] at h
        simp at h
      · rw [hcs] at h
        rcases hrest : scoreChunks sqrt qe rest with e | stail
        · rw [hrest] at h
          simp at h
        · rw [hrest] at h
          simp only [Except.ok.injEq] at h
          have ih := scoreChunks_ok sqrt qe rest stail hrest
          rw [← h]
          constructor
          · simp [ih.1]
          · simp [ih.2]

/-- Claim C5: for every set of stored chunk records carrying strictly
increasing original indices, every query embedding and every k, when
the scoring pass succeeds, the sort-and-slice step returns results
ranked by strictly descending cosine similarity with exactly equal
similarities ranked by ascending original index (first-seen order), and
the number of results is the minimum of k and the number of stored
chunks. -/
theorem topK_sorted_and_sized (sqrt : ℚ → ℚ) (qe : List ℚ)
    (ces : List ChunkEmbedding) (k : Nat) (scored : List ScoredChunk)
    (hidx : ces.Pairwise (fun c d => c.index < d.index))
    (hscore : scoreChunks sqrt qe ces = .ok scored) :
    (topK scored k).Pairwise rankedBefore ∧
    (topK scored k).length = min k ces.length := by
  have hok := scoreChunks_ok sqrt qe ces scored hscore
  have h1 : (List.map ChunkEmbedding.index ces).Pairwise (· < ·) :=
    List.pairwise_map.mpr hidx
  have h2 : (List.map ScoredChunk.index scored).Pairwise (· < ·) := by
    rw [hok.2]
    exact h1
  have hscored_idx : scored.Pairwise (fun a b => a.index < b.index) :=
    List.pairwise_map.mp h2
  constructor
  · exact (sortDesc_pairwise scored hscored_idx).sublist
      (List.take_sublist k (sortDesc scored))
  · rw [topK, List.length_take, length_sortDesc, hok.1]

/-- Witness for claim C5 at two stored chunks, scored 1 and one half
against the query embedding with single coordinate 1 (under the
identity in place of the square root). -/
theorem topK_sorted_and_sized_witness :
    (topK scoredW 3).Pairwise rankedBefore ∧
    (topK scoredW 3).length = min 3 cesW.length :=
  topK_sorted_and_sized (fun x => x) [1] cesW 3 scoredW
    (by simp [cesW])
    (by norm_num [scoreChunks, cosineSimilarity, dotp, cesW, scoredW])

end Helpdesk
